import Mathlib

/-!
Verification of `plot_eval_results.py` (manta-ide/manta).

The script loads the newest `eval/eval-results-*.json` file, extracts per-run
metric series, computes valid-mode rolling averages, renders charts, and prints
a formatted summary. This file gives a shallow embedding of the script's
logic — file selection (lines 9-15), JSON load and series extraction
(lines 19-34), rolling averages via `np.convolve(..., mode='valid')`
(lines 41-45), the first `data['summary']` access (line 53), timestamp parsing
(line 27), and the summary print statements (lines 158-166) — and proves the
specification's testable properties against it.

Python strings are modelled as `String` (a list of code points); the string
operations the script uses (`split`, `replace`, lexicographic comparison) are
implemented here by structural recursion over `List Char`, matching Python's
code-point semantics, because they must evaluate inside the kernel.
Python numbers from JSON are modelled as `Int` (JSON integers) and `Rat`
(floats, exact); errors raised by the script are values of `PyError`.
-/

namespace PlotEval

/-! ### Python string primitives (code-point semantics) -/

/-- Test whether `pat` is a prefix of the second list (used by `replace`). -/
def startsWithPat : List Char → List Char → Bool
  | [], _ => true
  | _ :: _, [] => false
  | p :: ps, c :: cs => p == c && startsWithPat ps cs

/-- Fuel-driven core of Python's `str.replace`: replaces non-overlapping
occurrences of `pat` left to right. The fuel is the length of the remaining
input, which decreases at least as fast as the recursion; it keeps the
recursion structural so the kernel can evaluate it. (Python's empty-pattern
`replace` is not modelled; the script only replaces `".json"` and `"Z"`.) -/
def replaceLoop (pat rep : List Char) : ℕ → List Char → List Char
  | _, [] => []
  | 0, s => s
  | fuel + 1, c :: cs =>
    if pat ≠ [] ∧ startsWithPat pat (c :: cs) = true then
      rep ++ replaceLoop pat rep fuel (List.drop (pat.length - 1) cs)
    else c :: replaceLoop pat rep fuel cs

/-- Python `s.replace(pat, rep)` on code-point lists. -/
def replaceList (pat rep s : List Char) : List Char := replaceLoop pat rep s.length s

/-- Python `s.replace(pat, rep)` on strings. -/
def pyReplace (s pat rep : String) : String := String.mk (replaceList pat.data rep.data s.data)

/-- Python `s.split(sep)` for a one-character separator: always returns a
non-empty list of (possibly empty) fields. -/
def splitOnChar (sep : Char) : List Char → List (List Char)
  | [] => [[]]
  | c :: cs =>
    match splitOnChar sep cs with
    | [] => [[]]
    | g :: gs => if c = sep then [] :: g :: gs else (c :: g) :: gs

/-- Python string `<`: lexicographic comparison of code points. -/
def pyStrLtB : List Char → List Char → Bool
  | [], [] => false
  | [], _ :: _ => true
  | _ :: _, [] => false
  | a :: as, b :: bs =>
    if a.toNat = b.toNat then pyStrLtB as bs else decide (a.toNat < b.toNat)

/-- Python string `<=`: lexicographic comparison of code points. -/
def pyStrLeB : List Char → List Char → Bool
  | [], _ => true
  | _ :: _, [] => false
  | a :: as, b :: bs =>
    if a.toNat = b.toNat then pyStrLeB as bs else decide (a.toNat < b.toNat)

/-- Python `a < b` on strings. -/
def pyLt (a b : String) : Bool := pyStrLtB a.data b.data

/-- Python `a <= b` on strings. -/
def pyLe (a b : String) : Bool := pyStrLeB a.data b.data

/-! ### Error taxonomy

The exceptions the script can raise, by construct:
`FileNotFoundError` (line 11), `json.JSONDecodeError` (line 20),
`KeyError` (dict subscripts), `TypeError` (subscripting / iterating a
non-dict/non-list, formatting a non-number), `ValueError`
(`datetime.fromisoformat` on an unparseable string, `np.convolve` on an
empty array). -/

inductive PyError where
  | fileNotFoundError
  | jsonDecodeError
  | keyError (k : String)
  | typeError
  | valueError
deriving DecidableEq, Repr

instance exceptDecEq {ε α : Type} [DecidableEq ε] [DecidableEq α] : DecidableEq (Except ε α)
  | .error a, .error b => if h : a = b then .isTrue (h ▸ rfl) else .isFalse (by simp [h])
  | .error _, .ok _ => .isFalse (by simp)
  | .ok _, .error _ => .isFalse (by simp)
  | .ok a, .ok b => if h : a = b then .isTrue (h ▸ rfl) else .isFalse (by simp [h])

/-! ### File selection (lines 9-15)

`eval_files.sort(key=lambda x: x.split('-')[-1].replace('.json', ''), reverse=True)`
`json_file_path = eval_files[0]`

Python's `list.sort` is a stable sort; with `reverse=True` it orders keys in
descending order while ties keep their original relative order. It is modelled
by a stable insertion sort with the relation "my key is >= yours". -/

/-- The sort key of line 14: text after the last `'-'`, with every occurrence
of `".json"` removed (Python's `replace` removes all occurrences, not only a
trailing extension). -/
def sortKey (x : String) : String :=
  String.mk (replaceList (".json".data) [] ((splitOnChar '-' x.data).getLastD []))

/-- `keyGe a b` holds when `a`'s sort key is at least `b`'s: the descending
comparison used by `sort(..., reverse=True)`. -/
def keyGe (a b : String) : Prop := pyLe (sortKey b) (sortKey a) = true

instance : DecidableRel keyGe := fun _ _ => inferInstanceAs (Decidable (_ = true))

/-- The sorted candidate list of line 14 (stable, descending by `sortKey`). -/
def pySortedFiles (files : List String) : List String := List.insertionSort keyGe files

/-- Lines 9-15: raise `FileNotFoundError` on an empty candidate list, else
sort descending by key and take the first element. -/
def selectLatestFile (files : List String) : Except PyError String :=
  if files.isEmpty then .error .fileNotFoundError
  else .ok ((pySortedFiles files).headD (""))

/-- The first element of maximal `sortKey` in original list order — the
specification's description of which candidate wins. -/
def firstMaxBy : List String → Option String
  | [] => none
  | x :: xs =>
    match firstMaxBy xs with
    | none => some x
    | some y => if keyGe x y then some x else some y

/-- Modelled from the spec's words for the claimed sort key: "text after the
last `-`, with the `.json` extension stripped" — i.e. the trailing segment
with a trailing `".json"` suffix (only) removed. Compared against `sortKey`,
which is what the code computes. -/
def specTimestampSegment (x : String) : String :=
  let seg := (splitOnChar '-' x.data).getLastD []
  if List.drop (seg.length - 5) seg = ".json".data ∧ 5 ≤ seg.length then
    String.mk (List.take (seg.length - 5) seg)
  else String.mk seg

/-! ### JSON values (the result of `json.load`, line 20)

`json.load` produces `None`/`bool`/`int`/`float`/`str`/`list`/`dict`.
Integers and floats are kept apart because Python renders them differently
(`str(10) = "10"` but `str(10.0) = "10.0"`); float values are modelled
exactly as rationals. -/

inductive Json where
  | null
  | bool (b : Bool)
  | jint (n : ℤ)
  | jnum (q : ℚ)
  | str (s : String)
  | arr (elems : List Json)
  | obj (fields : List (String × Json))

/-- Python dict subscript `d[k]`: `KeyError` when the key is absent,
`TypeError` when the value is not a dict. -/
def getItem : Json → String → Except PyError Json
  | .obj kvs, k => match kvs.lookup k with
    | some v => .ok v
    | none => .error (.keyError k)
  | _, _ => .error .typeError

/-- The outcome of `json.load` (line 20): the input is either a parsed JSON
document or malformed (`none`), in which case `json.JSONDecodeError` is
raised — never a silent empty result. -/
def pyJsonLoad : Option Json → Except PyError Json
  | none => .error .jsonDecodeError
  | some j => .ok j

/-- Iterating `runs` in the list comprehensions requires a JSON array. -/
def asList : Json → Except PyError (List Json)
  | .arr xs => .ok xs
  | _ => .error .typeError

/-- A Python list comprehension `[f(x) for x in xs]` where `f` may raise:
the first raised exception aborts the whole comprehension. -/
def mapE {α β : Type} (f : α → Except PyError β) : List α → Except PyError (List β)
  | [] => .ok []
  | x :: xs => do
    let y ← f x
    let ys ← mapE f xs
    .ok (y :: ys)

/-! ### Timestamp parsing (line 27)

`datetime.fromisoformat(run['timestamp'].replace('Z', '+00:00'))`

`datetime.fromisoformat` is modelled for the formats the data model uses:
`YYYY-MM-DD<sep>HH:MM:SS` with an optional `±HH:MM` offset. The parser used
by the script does not accept a bare trailing `Z`, which is why the code
replaces it first. -/

/-- A parsed `datetime` value; `utcOffsetMinutes = none` models a naive
datetime (no timezone). -/
structure PyDatetime where
  year : ℕ
  month : ℕ
  day : ℕ
  hour : ℕ
  minute : ℕ
  second : ℕ
  utcOffsetMinutes : Option ℤ
deriving DecidableEq, Repr

instance : Inhabited PyDatetime := ⟨⟨0, 0, 0, 0, 0, 0, none⟩⟩

/-- Numeric value of a decimal digit character. -/
def digitVal (c : Char) : Option ℕ :=
  if c.isDigit then some (c.toNat - 48) else none

/-- Two-digit decimal field. -/
def digits2 (a b : Char) : Option ℕ := do
  pure ((← digitVal a) * 10 + (← digitVal b))

/-- Four-digit decimal field. -/
def digits4 (a b c d : Char) : Option ℕ := do
  pure (((← digitVal a) * 10 + (← digitVal b)) * 100 + ((← digitVal c) * 10 + (← digitVal d)))

/-- Proleptic Gregorian leap-year rule. -/
def isLeapYear (y : ℕ) : Bool :=
  (y % 4 == 0 && y % 100 != 0) || y % 400 == 0

/-- Days in a month of the proleptic Gregorian calendar. -/
def daysInMonth (y mo : ℕ) : ℕ :=
  if mo = 2 then (if isLeapYear y then 29 else 28)
  else if mo = 4 ∨ mo = 6 ∨ mo = 9 ∨ mo = 11 then 30 else 31

/-- `datetime` construction with the range validation `fromisoformat`
performs (invalid fields raise `ValueError`). -/
def mkValidDatetime (y mo da h mi se : ℕ) (off : Option ℤ) : Option PyDatetime :=
  if 1 ≤ mo ∧ mo ≤ 12 ∧ 1 ≤ da ∧ da ≤ daysInMonth y mo ∧ h ≤ 23 ∧ mi ≤ 59 ∧ se ≤ 59
  then some ⟨y, mo, da, h, mi, se, off⟩ else none

/-- `datetime.fromisoformat` for `YYYY-MM-DD<sep>HH:MM:SS[±HH:MM]` (the
separator between date and time may be any character; a bare trailing `Z`
is not accepted, matching the parser the script works around). -/
def fromisoformat (s : String) : Option PyDatetime :=
  match s.data with
  | [y1, y2, y3, y4, c1, b1, b2, c2, d1, d2, _, h1, h2, c4, m1, m2, c5, s1, s2] =>
    if c1 = '-' ∧ c2 = '-' ∧ c4 = ':' ∧ c5 = ':' then do
      let y ← digits4 y1 y2 y3 y4
      let mo ← digits2 b1 b2
      let da ← digits2 d1 d2
      let h ← digits2 h1 h2
      let mi ← digits2 m1 m2
      let se ← digits2 s1 s2
      mkValidDatetime y mo da h mi se none
    else none
  | [y1, y2, y3, y4, c1, b1, b2, c2, d1, d2, _, h1, h2, c4, m1, m2, c5, s1, s2,
     sgn, o1, o2, c6, o3, o4] =>
    if (sgn = '+' ∨ sgn = '-') ∧ c1 = '-' ∧ c2 = '-' ∧ c4 = ':' ∧ c5 = ':' ∧ c6 = ':' then do
      let y ← digits4 y1 y2 y3 y4
      let mo ← digits2 b1 b2
      let da ← digits2 d1 d2
      let h ← digits2 h1 h2
      let mi ← digits2 m1 m2
      let se ← digits2 s1 s2
      let oh ← digits2 o1 o2
      let om ← digits2 o3 o4
      if oh ≤ 23 ∧ om ≤ 59 then
        let off : ℤ := oh * 60 + om
        mkValidDatetime y mo da h mi se (some (if sgn = '-' then -off else off))
      else none
    else none
  | _ => none

/-- Line 27's parse of one timestamp string: normalize `'Z'` to `'+00:00'`
by `str.replace`, then `fromisoformat`. -/
def parseRunTimestamp (s : String) : Option PyDatetime :=
  fromisoformat (pyReplace s ("Z") ("+00:00"))

/-- Days from 1970-01-01 of a proleptic Gregorian civil date
(floor-division form of the standard civil-from-days inverse). -/
def daysFromCivil (y mo da : ℕ) : ℤ :=
  let yAdj : ℤ := if mo ≤ 2 then (y : ℤ) - 1 else (y : ℤ)
  let era : ℤ := Int.fdiv yAdj 400
  let yoe : ℤ := yAdj - era * 400
  let mp : ℤ := if mo ≤ 2 then (mo : ℤ) + 9 else (mo : ℤ) - 3
  let doy : ℤ := Int.fdiv (153 * mp + 2) 5 + (da : ℤ) - 1
  let doe : ℤ := yoe * 365 + Int.fdiv yoe 4 - Int.fdiv yoe 100 + doy
  era * 146097 + doe - 719468

/-- The absolute instant (seconds since the Unix epoch) of a timezone-aware
datetime; `none` for a naive one (which denotes no single instant). -/
def toInstant (dt : PyDatetime) : Option ℤ :=
  match dt.utcOffsetMinutes with
  | none => none
  | some off => some ((daysFromCivil dt.year dt.month dt.day) * 86400
      + dt.hour * 3600 + dt.minute * 60 + dt.second - off * 60)

/-! ### Series extraction (lines 22-34) and the later summary access (line 53) -/

/-- The eight parallel per-run sequences the script builds (lines 25-34).
Values other than timestamps are carried as the JSON values found in the
file; timestamps are parsed to `PyDatetime`. -/
structure Series where
  runNumbers : List Json
  scores : List Json
  timestamps : List PyDatetime
  nodesCreated : List Json
  edgesCreated : List Json
  propertyCoverage : List Json
  relationshipAccuracy : List Json
  propertiesPerNode : List Json

/-- Line 27 for one run: `run['timestamp']` must be a string (otherwise
`.replace` raises), and the normalized string must parse (otherwise
`fromisoformat` raises `ValueError`). -/
def parseTimestampField (run : Json) : Except PyError PyDatetime := do
  let t ← getItem run ("timestamp")
  match t with
  | .str s =>
    match parseRunTimestamp s with
    | some dt => .ok dt
    | none => .error .valueError
  | _ => .error .typeError

/-- `run['details'][k]` (lines 30-34). -/
def getDetail (run : Json) (k : String) : Except PyError Json := do
  let d ← getItem run ("details")
  getItem d k

/-- Lines 25-34: the eight list comprehensions over `runs`, in source order. -/
def extractSeries (runs : List Json) : Except PyError Series := do
  let runNumbers ← mapE (fun r => getItem r ("runNumber")) runs
  let scores ← mapE (fun r => getItem r ("score")) runs
  let timestamps ← mapE parseTimestampField runs
  let nodesCreated ← mapE (fun r => getDetail r ("nodesCreated")) runs
  let edgesCreated ← mapE (fun r => getDetail r ("edgesCreated")) runs
  let propertyCoverage ← mapE (fun r => getDetail r ("propertyCoverage")) runs
  let relationshipAccuracy ← mapE (fun r => getDetail r ("relationshipAccuracy")) runs
  let propertiesPerNode ← mapE (fun r => getDetail r ("averagePropertiesPerNode")) runs
  .ok ⟨runNumbers, scores, timestamps, nodesCreated, edgesCreated,
       propertyCoverage, relationshipAccuracy, propertiesPerNode⟩

/-- Lines 19-34 as one stage: `json.load`, `data['runs']`, and the series
comprehensions. No `'summary'` access happens in this stage. -/
def loadAndExtract (input : Option Json) : Except PyError (Json × Series) := do
  let data ← pyJsonLoad input
  let runsJ ← getItem data ("runs")
  let rs ← asList runsJ
  let s ← extractSeries rs
  .ok (data, s)

/-- Line 53: `data['summary']['averageScore']`, the first read of the summary
record after loading. -/
def summaryAverageScore (data : Json) : Except PyError Json := do
  let s ← getItem data ("summary")
  getItem s ("averageScore")

/-! ### Rolling averages (lines 41-45)

`np.convolve(xs, np.ones(w)/w, mode='valid')`.

`np.convolve(a, v)` is the discrete convolution `c[k] = Σ_i a[i]·v[k-i]`,
of length `len(a)+len(v)-1`; `mode='valid'` keeps the entries where the
shorter input overlaps the longer one completely, i.e. the slice of length
`max(M,N) - min(M,N) + 1` starting at index `min(M,N) - 1`. It raises
`ValueError` when either input is empty. -/

/-- Full discrete convolution of two coefficient lists (out-of-range
coefficients are 0, so the `Finset.range (k+1)` sum covers all nonzero
terms of `Σ_i a[i]·v[k-i]`). -/
def npFullConv (a v : List ℚ) : List ℚ :=
  (List.range (a.length + v.length - 1)).map (fun k =>
    ∑ i ∈ Finset.range (k + 1), a.getD i 0 * v.getD (k - i) 0)

/-- `np.convolve(a, v, mode='valid')`. -/
def npConvolveValid (a v : List ℚ) : Except PyError (List ℚ) :=
  if a.length = 0 ∨ v.length = 0 then .error .valueError
  else .ok (((npFullConv a v).drop (min a.length v.length - 1)).take
      (max a.length v.length - min a.length v.length + 1))

/-- Lines 41-44: `np.convolve(series, np.ones(window)/window, mode='valid')`.
`np.ones(w)/w` is the list of `w` copies of `1/w`; `window = 0` gives the
empty kernel, which `np.convolve` rejects. -/
def rollingAverage (series : List ℚ) (window : ℕ) : Except PyError (List ℚ) :=
  npConvolveValid series (List.replicate window ((1 : ℚ) / window))

/-- The value `rollingAverage` returns in the well-formed case
`0 < window ≤ len(series)` (the else-branch of `npConvolveValid` with
`min = window`, `max = len(series)`). -/
def validSliceRA (s : List ℚ) (w : ℕ) : List ℚ :=
  ((npFullConv s (List.replicate w ((1 : ℚ) / w))).drop (w - 1)).take (s.length - w + 1)

/-! ### Summary formatting (lines 158-166)

`f"{x:.1f}"` / `f"{x:.2f}"` render a number in fixed-point notation with the
given number of fractional digits, rounding half to even (CPython formats the
exact value of the number, and these JSON-sourced values are modelled
exactly). `minScore`/`maxScore` (line 160) are interpolated with plain
`str()`. All digit manipulation is done on `num`/`den` directly with `Int`/`ℕ`
arithmetic so the kernel can evaluate it. -/

/-- Left-pad a digit string with zeros to the given width. -/
def padZeros (s : String) (width : ℕ) : String :=
  String.mk (List.replicate (width - s.data.length) '0') ++ s

/-- Round `n / d` to the nearest integer, half to even (`d ≠ 0`). -/
def roundHalfEvenDiv (n d : ℕ) : ℕ :=
  let q := n / d
  let r := n % d
  if 2 * r < d then q
  else if d < 2 * r then q + 1
  else if q % 2 = 0 then q else q + 1

/-- Python `format(q, '.<prec>f')` for an exact rational value. -/
def fixedFormat (q : ℚ) (prec : ℕ) : String :=
  let sign := if q.num < 0 then "-" else ""
  let m := roundHalfEvenDiv (q.num.natAbs * 10 ^ prec) q.den
  if prec = 0 then sign ++ toString m
  else sign ++ toString (m / 10 ^ prec) ++ "." ++ padZeros (toString (m % 10 ^ prec)) prec

/-- The numeric value of a JSON number (`int` or `float`); Python's format
specifiers also accept `bool` (a subclass of `int`). -/
def jnumVal : Json → Option ℚ
  | .jint n => some (n : ℚ)
  | .jnum q => some q
  | .bool true => some 1
  | .bool false => some 0
  | _ => none

/-- `f"{j:.<prec>f}"`: fixed-point formatting of a JSON value; non-numbers
raise (`ValueError` for strings, `TypeError` otherwise). -/
def formatFixedJ (j : Json) (prec : ℕ) : Except PyError String :=
  match jnumVal j with
  | some q => .ok (fixedFormat q prec)
  | none => .error (match j with | .str _ => .valueError | _ => .typeError)

/-- `str()` of a float whose exact value is `q`: the decimal expansion,
printed exactly when it is finite (floats always have finite decimal
expansions; the fallback branch is unreachable for them). -/
def decimalStr (q : ℚ) : String :=
  if q.den = 1 then toString q.num ++ (".0")
  else
    let sign := if q.num < 0 then "-" else ""
    match (List.range 64).find? (fun k => (q.num.natAbs * 10 ^ (k + 1)) % q.den = 0) with
    | some k =>
      let digits := k + 1
      let m := q.num.natAbs * 10 ^ digits / q.den
      sign ++ toString (m / 10 ^ digits) ++ "." ++ padZeros (toString (m % 10 ^ digits)) digits
    | none => sign ++ toString q.num.natAbs ++ "/" ++ toString q.den

mutual

/-- Python `str()` as used by f-string interpolation. Scalars are exact;
containers are rendered element-wise (Python quotes strings inside
containers via `repr`; that quoting is approximated by the raw text, which
no claim exercises). -/
def pyStr : Json → String
  | .null => "None"
  | .bool true => "True"
  | .bool false => "False"
  | .jint n => toString n
  | .jnum q => decimalStr q
  | .str s => s
  | .arr xs => "[" ++ pyStrList xs ++ "]"
  | .obj kvs => "\x7b" ++ pyStrObj kvs ++ "\x7d"

/-- Comma-joined rendering of array elements. -/
def pyStrList : List Json → String
  | [] => ""
  | [x] => pyStr x
  | x :: y :: xs => pyStr x ++ ", " ++ pyStrList (y :: xs)

/-- Comma-joined rendering of object fields. -/
def pyStrObj : List (String × Json) → String
  | [] => ""
  | [(k, v)] => k ++ ": " ++ pyStr v
  | (k, v) :: p :: kvs => k ++ ": " ++ pyStr v ++ ", " ++ pyStrObj (p :: kvs)

end

/-- Lines 158-166: the summary statistics text, one line per print, with the
exact f-string layouts of the source (`.1f` for averageScore and the two
averageMetrics counts; plain `str` for minScore/maxScore; `.2f` for
coverage, accuracy, standard deviation and consistency). -/
def summaryLines (data : Json) : Except PyError (List String) := do
  let summary ← getItem data ("summary")
  let avg ← getItem summary ("averageScore")
  let avgS ← formatFixedJ avg 1
  let mn ← getItem summary ("minScore")
  let mx ← getItem summary ("maxScore")
  let am1 ← getItem summary ("averageMetrics")
  let nc ← getItem am1 ("nodesCreated")
  let ncS ← formatFixedJ nc 1
  let am2 ← getItem summary ("averageMetrics")
  let ec ← getItem am2 ("edgesCreated")
  let ecS ← formatFixedJ ec 1
  let am3 ← getItem summary ("averageMetrics")
  let pc ← getItem am3 ("propertyCoverage")
  let pcS ← formatFixedJ pc 2
  let am4 ← getItem summary ("averageMetrics")
  let ra ← getItem am4 ("relationshipAccuracy")
  let raS ← formatFixedJ ra 2
  let sd ← getItem summary ("standardDeviation")
  let sdS ← formatFixedJ sd 2
  let cs ← getItem summary ("consistencyScore")
  let csS ← formatFixedJ cs 2
  .ok ["Summary Statistics:",
       "Average Score: " ++ avgS,
       "Score Range: " ++ pyStr mn ++ " - " ++ pyStr mx,
       "Average Nodes Created: " ++ ncS,
       "Average Edges Created: " ++ ecS,
       "Average Property Coverage: " ++ pcS,
       "Average Relationship Accuracy: " ++ raS,
       "Standard Deviation: " ++ sdS,
       "Consistency Score: " ++ csS]

/-- A top-level document whose `summary` record holds the given values, in
the schema of section 3 of the specification. -/
def mkSummaryJson (avg mn mx nc ec pc ra sd cs : Json) : Json :=
  Json.obj [("summary", Json.obj
    [("averageScore", avg), ("minScore", mn), ("maxScore", mx),
     ("averageMetrics", Json.obj
       [("nodesCreated", nc), ("edgesCreated", ec),
        ("propertyCoverage", pc), ("relationshipAccuracy", ra)]),
     ("standardDeviation", sd), ("consistencyScore", cs)])]

/-! ### Supporting lemmas -/


lemma pyStrLeB_refl : ∀ a : List Char, pyStrLeB a a = true
  | [] => rfl
  | c :: cs => by simp [pyStrLeB, pyStrLeB_refl cs]

lemma pyStrLeB_trans : ∀ a b c : List Char,
    pyStrLeB a b = true → pyStrLeB b c = true → pyStrLeB a c = true := by
  intro a
  induction a with
  | nil => intro b c _ _; rfl
  | cons x xs ih =>
    intro b c h1 h2
    cases b with
    | nil => simp [pyStrLeB] at h1
    | cons y ys =>
      cases c with
      | nil => simp [pyStrLeB] at h2
      | cons z zs =>
        simp only [pyStrLeB] at h1 h2 ⊢
        by_cases e1 : x.toNat = y.toNat <;> by_cases e2 : y.toNat = z.toNat
        · rw [if_pos e1] at h1; rw [if_pos e2] at h2
          rw [if_pos (e1.trans e2)]
          exact ih ys zs h1 h2
        · rw [if_pos e1] at h1
          rw [if_neg e2, decide_eq_true_eq] at h2
          have e3 : x.toNat ≠ z.toNat := by omega
          rw [if_neg e3, decide_eq_true_eq]; omega
        · rw [if_neg e1, decide_eq_true_eq] at h1
          rw [if_pos e2] at h2
          have e3 : x.toNat ≠ z.toNat := by omega
          rw [if_neg e3, decide_eq_true_eq]; omega
        · rw [if_neg e1, decide_eq_true_eq] at h1
          rw [if_neg e2, decide_eq_true_eq] at h2
          have e3 : x.toNat ≠ z.toNat := by omega
          rw [if_neg e3, decide_eq_true_eq]; omega

lemma pyStrLeB_eq_not_lt : ∀ a b : List Char, pyStrLeB a b = !pyStrLtB b a := by
  intro a
  induction a with
  | nil => intro b; cases b <;> rfl
  | cons x xs ih =>
    intro b
    cases b with
    | nil => rfl
    | cons y ys =>
      simp only [pyStrLeB, pyStrLtB]
      by_cases e : x.toNat = y.toNat
      · rw [if_pos e, if_pos e.symm]; exact ih ys
      · rw [if_neg e, if_neg (fun h => e h.symm)]
        rcases Nat.lt_trichotomy x.toNat y.toNat with h | h | h
        · simp [h, Nat.not_lt.mpr (Nat.le_of_lt h)]
        · exact absurd h e
        · simp [h, Nat.not_lt.mpr (Nat.le_of_lt h), Nat.lt_irrefl]

lemma pyStrLtB_imp_le : ∀ a b : List Char, pyStrLtB a b = true → pyStrLeB a b = true := by
  intro a
  induction a with
  | nil => intro b _; rfl
  | cons x xs ih =>
    intro b h
    cases b with
    | nil => simp [pyStrLtB] at h
    | cons y ys =>
      simp only [pyStrLtB] at h
      simp only [pyStrLeB]
      by_cases e : x.toNat = y.toNat
      · rw [if_pos e] at h; rw [if_pos e]; exact ih ys h
      · rw [if_neg e] at h; rw [if_neg e]; exact h

lemma pyLe_refl (a : String) : pyLe a a = true := pyStrLeB_refl a.data

lemma pyLe_trans {a b c : String} (h1 : pyLe a b = true) (h2 : pyLe b c = true) :
    pyLe a c = true := pyStrLeB_trans a.data b.data c.data h1 h2

lemma pyLt_of_not_le {a b : String} (h : ¬ pyLe b a = true) : pyLt a b = true := by
  unfold pyLe at h
  rw [pyStrLeB_eq_not_lt] at h
  unfold pyLt
  cases hlt : pyStrLtB a.data b.data with
  | true => rfl
  | false => rw [hlt] at h; exact absurd rfl h

lemma pyLe_of_lt {a b : String} (h : pyLt a b = true) : pyLe a b = true :=
  pyStrLtB_imp_le a.data b.data h



lemma keyGe_iff (a b : String) : keyGe a b ↔ pyLe (sortKey b) (sortKey a) = true := Iff.rfl

lemma firstMaxBy_ne_none (x : String) (xs : List String) : firstMaxBy (x :: xs) ≠ none := by
  rw [firstMaxBy]
  cases firstMaxBy xs with
  | none => simp
  | some y =>
    show (if keyGe x y then some x else some y) ≠ none
    split <;> simp

lemma firstMaxBy_eq_none_iff : ∀ l : List String, firstMaxBy l = none ↔ l = []
  | [] => by simp [firstMaxBy]
  | x :: xs => by simp [firstMaxBy_ne_none x xs]

lemma head?_insertionSort (l : List String) :
    (List.insertionSort keyGe l).head? = firstMaxBy l := by
  induction l with
  | nil => rfl
  | cons x xs ih =>
    show (List.orderedInsert keyGe x (List.insertionSort keyGe xs)).head? = firstMaxBy (x :: xs)
    cases hs : List.insertionSort keyGe xs with
    | nil =>
      have hm : firstMaxBy xs = none := by rw [← ih, hs]; rfl
      rw [firstMaxBy, hm]
      rfl
    | cons y t =>
      have hm : firstMaxBy xs = some y := by rw [← ih, hs]; rfl
      rw [firstMaxBy, hm]
      show (if keyGe x y then x :: y :: t else y :: List.orderedInsert keyGe x t).head? =
        (if keyGe x y then some x else some y)
      by_cases hc : keyGe x y
      · rw [if_pos hc, if_pos hc]; rfl
      · rw [if_neg hc, if_neg hc]; rfl

lemma firstMaxBy_spec : ∀ (l : List String) (f : String), firstMaxBy l = some f →
    f ∈ l ∧ (∀ g ∈ l, pyLe (sortKey g) (sortKey f) = true) ∧
    ∃ i, ∃ hi : i < l.length, l[i] = f ∧
      ∀ j, (hj : j < l.length) → j < i → pyLt (sortKey l[j]) (sortKey f) = true := by
  intro l
  induction l with
  | nil => intro f h; simp [firstMaxBy] at h
  | cons x xs ih =>
    intro f h
    cases hm : firstMaxBy xs with
    | none =>
      have hxs : xs = [] := (firstMaxBy_eq_none_iff xs).mp hm
      have hx : x = f := by
        have h' : some x = some f := by rw [firstMaxBy, hm] at h; exact h
        injection h'
      subst hx
      subst hxs
      refine ⟨List.mem_singleton_self x, ?_, 0, by simp, rfl, ?_⟩
      · intro g hg
        rw [List.mem_singleton] at hg
        subst hg
        exact pyLe_refl _
      · intro j hj hj0
        omega
    | some y =>
      have h' : (if keyGe x y then some x else some y) = some f := by
        rw [firstMaxBy, hm] at h; exact h
      obtain ⟨hymem, hymax, i, hi, hieq, hifirst⟩ := ih y hm
      by_cases hc : keyGe x y
      · rw [if_pos hc] at h'
        have hx : x = f := by injection h'
        subst hx
        have hc' : pyLe (sortKey y) (sortKey x) = true := hc
        refine ⟨List.mem_cons_self x xs, ?_, 0, by simp, rfl, ?_⟩
        · intro g hg
          rcases List.mem_cons.mp hg with hg | hg
          · subst hg; exact pyLe_refl _
          · exact pyLe_trans (hymax g hg) hc'
        · intro j hj hj0
          omega
      · rw [if_neg hc] at h'
        have hy : y = f := by injection h'
        subst hy
        have hc' : ¬ pyLe (sortKey y) (sortKey x) = true := hc
        have hlt : pyLt (sortKey x) (sortKey y) = true := pyLt_of_not_le hc'
        refine ⟨List.mem_cons_of_mem x hymem, ?_, i + 1, by simpa using hi,
          by simpa using hieq, ?_⟩
        · intro g hg
          rcases List.mem_cons.mp hg with hg | hg
          · subst hg; exact pyLe_of_lt hlt
          · exact hymax g hg
        · intro j hj hjlt
          cases j with
          | zero => simpa using hlt
          | succ j' =>
            have hj' : j' < xs.length := by simpa using hj
            have := hifirst j' hj' (by omega)
            simpa using this

lemma selectLatestFile_spec (files : List String) (h : files ≠ []) :
    ∃ f, selectLatestFile files = .ok f ∧ f ∈ files ∧
      (∀ g ∈ files, pyLe (sortKey g) (sortKey f) = true) ∧
      ∃ i, ∃ hi : i < files.length, files[i] = f ∧
        ∀ j, (hj : j < files.length) → j < i →
          pyLt (sortKey files[j]) (sortKey f) = true := by
  have hne : firstMaxBy files ≠ none := fun hn => h ((firstMaxBy_eq_none_iff files).mp hn)
  obtain ⟨f, hf⟩ := Option.ne_none_iff_exists'.mp hne
  obtain ⟨hmem, hmax, hfirst⟩ := firstMaxBy_spec files f hf
  refine ⟨f, ?_, hmem, hmax, hfirst⟩
  unfold selectLatestFile
  rw [if_neg (by simpa using h)]
  have hh : (pySortedFiles files).head? = some f := by
    rw [pySortedFiles, head?_insertionSort, hf]
  cases hs : pySortedFiles files with
  | nil => rw [hs] at hh; simp at hh
  | cons a t =>
    rw [hs] at hh
    have ha : a = f := by injection hh
    simp [ha]



lemma bind_ok_iff {α β : Type} (x : Except PyError α) (f : α → Except PyError β) (b : β) :
    (x >>= f) = .ok b ↔ ∃ a, x = .ok a ∧ f a = .ok b := by
  cases x <;> simp [Bind.bind, Except.bind]

lemma mapE_eq_ok {α β : Type} (f : α → Except PyError β) :
    ∀ (xs : List α) (ys : List β), mapE f xs = .ok ys →
      ys.length = xs.length ∧ ∀ i, (hx : i < xs.length) → (hy : i < ys.length) →
        f xs[i] = .ok ys[i] := by
  intro xs
  induction xs with
  | nil =>
    intro ys h
    have h' : Except.ok [] = Except.ok (ε := PyError) ys := h
    have : ([] : List β) = ys := by injection h'
    subst this
    exact ⟨rfl, fun i hx _ => by simp at hx⟩
  | cons x xs ih =>
    intro ys h
    have h' : (f x >>= fun y => mapE f xs >>= fun ys2 => Except.ok (y :: ys2)) = .ok ys := h
    rw [bind_ok_iff] at h'
    obtain ⟨y, hy, h2⟩ := h'
    rw [bind_ok_iff] at h2
    obtain ⟨ys2, hys2, h3⟩ := h2
    have hcons : y :: ys2 = ys := by injection h3
    subst hcons
    obtain ⟨hlen, hidx⟩ := ih ys2 hys2
    refine ⟨by simp [hlen], ?_⟩
    intro i hx hy2
    cases i with
    | zero => simpa using hy
    | succ i' =>
      have hx' : i' < xs.length := by simpa using hx
      have hy' : i' < ys2.length := by simpa using hy2
      simpa using hidx i' hx' hy'

lemma getD_replicate (w : ℕ) (c : ℚ) :
    ∀ i : ℕ, (List.replicate w c).getD i 0 = if i < w then c else 0 := by
  induction w with
  | zero => intro i; simp [List.replicate]
  | succ n ih =>
    intro i
    cases i with
    | zero => rw [List.replicate_succ, List.getD_cons_zero, if_pos (Nat.succ_pos n)]
    | succ i' =>
      rw [List.replicate_succ, List.getD_cons_succ, ih i']
      by_cases h : i' < n
      · rw [if_pos h, if_pos (by omega)]
      · rw [if_neg h, if_neg (by omega)]

lemma rollingAverage_eq_ok (s : List ℚ) (w : ℕ) (hw : 0 < w) (hle : w ≤ s.length) :
    rollingAverage s w = .ok (validSliceRA s w) := by
  unfold rollingAverage npConvolveValid validSliceRA
  rw [List.length_replicate]
  rw [if_neg (by omega)]
  have hmin : min s.length w = w := by omega
  have hmax : max s.length w = s.length := by omega
  rw [hmin, hmax]

lemma validSliceRA_length (s : List ℚ) (w : ℕ) (hw : 0 < w) (hle : w ≤ s.length) :
    (validSliceRA s w).length = s.length - w + 1 := by
  unfold validSliceRA npFullConv
  simp [List.length_replicate]
  omega

lemma conv_sum_eq (s : List ℚ) (w t : ℕ) (hw : 0 < w) :
    (∑ i ∈ Finset.range (t + w),
        s.getD i 0 * (List.replicate w ((1:ℚ)/w)).getD (t + w - 1 - i) 0)
      = (∑ j ∈ Finset.range w, s.getD (t + j) 0) / w := by
  have hrep : ∀ j : ℕ, (List.replicate w ((1:ℚ)/w)).getD j 0 = if j < w then (1:ℚ)/w else 0 :=
    getD_replicate w _
  calc ∑ i ∈ Finset.range (t + w),
        s.getD i 0 * (List.replicate w ((1:ℚ)/w)).getD (t + w - 1 - i) 0
      = ∑ i ∈ Finset.Ico 0 (t + w),
          s.getD i 0 * (if t + w - 1 - i < w then (1:ℚ)/w else 0) := by
        rw [Finset.range_eq_Ico]
        exact Finset.sum_congr rfl (fun i _ => by rw [hrep])
    _ = (∑ i ∈ Finset.Ico 0 t, s.getD i 0 * (if t + w - 1 - i < w then (1:ℚ)/w else 0))
        + ∑ i ∈ Finset.Ico t (t + w),
            s.getD i 0 * (if t + w - 1 - i < w then (1:ℚ)/w else 0) :=
        (Finset.sum_Ico_consecutive _ (Nat.zero_le t) (by omega)).symm
    _ = 0 + ∑ i ∈ Finset.Ico t (t + w), s.getD i 0 * ((1:ℚ)/w) := by
        congr 1
        · apply Finset.sum_eq_zero
          intro i hi
          rw [Finset.mem_Ico] at hi
          rw [if_neg (by omega), mul_zero]
        · exact Finset.sum_congr rfl (fun i hi => by
            rw [Finset.mem_Ico] at hi
            rw [if_pos (by omega)])
    _ = ∑ j ∈ Finset.range w, s.getD (t + j) 0 * ((1:ℚ)/w) := by
        rw [zero_add, Finset.sum_Ico_eq_sum_range]
        simp
    _ = (∑ j ∈ Finset.range w, s.getD (t + j) 0) / w := by
        rw [← Finset.sum_mul, mul_one_div]

lemma validSliceRA_getElem (s : List ℚ) (w : ℕ) (hw : 0 < w) (hle : w ≤ s.length)
    (t : ℕ) (ht : t < (validSliceRA s w).length) :
    (validSliceRA s w)[t] = (∑ j ∈ Finset.range w, s.getD (t + j) 0) / w := by
  have hlen := validSliceRA_length s w hw hle
  rw [hlen] at ht
  simp only [validSliceRA, List.getElem_take, List.getElem_drop, npFullConv,
    List.getElem_map, List.getElem_range]
  have e3 : w - 1 + t = t + w - 1 := by omega
  rw [e3]
  have e4 : t + w - 1 + 1 = t + w := by omega
  rw [e4]
  exact conv_sum_eq s w t hw

lemma validSliceRA_one (s : List ℚ) (h1 : 1 ≤ s.length) : validSliceRA s 1 = s := by
  apply List.ext_getElem
  · rw [validSliceRA_length s 1 one_pos h1]; omega
  · intro i hi1 hi2
    rw [validSliceRA_getElem s 1 one_pos h1 i hi1]
    rw [Finset.sum_range_one, Nat.add_zero]
    rw [List.getD_eq_getElem?_getD, List.getElem?_eq_getElem hi2]
    simp




lemma ok_bind {α β : Type} (a : α) (f : α → Except PyError β) :
    ((Except.ok a : Except PyError α) >>= f) = f a := rfl

lemma getD_of_lt {α : Type} (l : List α) (d : α) (i : ℕ) (h : i < l.length) :
    l.getD i d = l[i] := by
  rw [List.getD_eq_getElem?_getD, List.getElem?_eq_getElem h]
  rfl

/-! ### The claims -/

/-- C1 (counterexample): the claim reads the sort key as the trailing segment
with the `.json` extension stripped. On the candidate set below, both files
have code key `"bz"` (Python `replace` removes every occurrence of `".json"`),
so the code keeps the first file; but the spec key of the second file,
`"bz"`, is strictly greater than that of the first, `"b.jsonz"`, so the claim
predicts the second file. -/
theorem C1_counterexample :
    selectLatestFile ["eval/eval-results-s-1-b.jsonz.json", "eval/eval-results-s-1-bz.json"]
      = .ok ("eval/eval-results-s-1-b.jsonz.json") ∧
    pyLt (specTimestampSegment ("eval/eval-results-s-1-b.jsonz.json"))
      (specTimestampSegment ("eval/eval-results-s-1-bz.json")) = true ∧
    ("eval/eval-results-s-1-b.jsonz.json" : String) ≠ "eval/eval-results-s-1-bz.json" :=
  ⟨by decide, by decide, by decide⟩

/-- C1 (amended): for every non-empty candidate list, `selectLatestFile`
returns the candidate whose sort key — the text after the last `-` with every
occurrence of `".json"` removed — is lexicographically maximal, and ties on
that key are broken by the original iteration order: the winner sits at an
index before which every candidate has a strictly smaller key. -/
theorem C1_theorem (files : List String) (h : files ≠ []) :
    ∃ f, selectLatestFile files = .ok f ∧ f ∈ files ∧
      (∀ g ∈ files, pyLe (sortKey g) (sortKey f) = true) ∧
      ∃ i, ∃ hi : i < files.length, files[i] = f ∧
        ∀ j, (hj : j < files.length) → j < i →
          pyLt (sortKey files[j]) (sortKey f) = true :=
  selectLatestFile_spec files h

/-- C1 (witness): the amended claim evaluated on a concrete candidate list. -/
theorem C1_witness :
    ∃ f, selectLatestFile ["a-1.json", "a-2.json"] = .ok f ∧
      f ∈ ["a-1.json", "a-2.json"] ∧
      (∀ g ∈ ["a-1.json", "a-2.json"], pyLe (sortKey g) (sortKey f) = true) ∧
      ∃ i, ∃ hi : i < (["a-1.json", "a-2.json"] : List String).length,
        (["a-1.json", "a-2.json"] : List String)[i] = f ∧
        ∀ j, (hj : j < (["a-1.json", "a-2.json"] : List String).length) → j < i →
          pyLt (sortKey ((["a-1.json", "a-2.json"] : List String)[j])) (sortKey f) = true :=
  C1_theorem ["a-1.json", "a-2.json"] (by decide)

/-- C2 (counterexample): for `series = [0]` and `window = 2`, `np.convolve`
in valid mode returns a list of length `2 = max - min + 1`, not the claimed
`max(0, len - window + 1) = 0`. -/
theorem C2_counterexample :
    rollingAverage [(0 : ℚ)] 2 = .ok [0, 0] ∧
    ¬ ∃ out : List ℚ, rollingAverage [(0 : ℚ)] 2 = .ok out ∧
        (out.length : ℤ) = max 0 ((1 : ℤ) - 2 + 1) := by
  have hok : rollingAverage [(0 : ℚ)] 2 = .ok [0, 0] := by
    simp [rollingAverage, npConvolveValid, npFullConv, List.range_succ,
      Finset.sum_range_succ, List.replicate, List.getD]
  refine ⟨hok, ?_⟩
  rintro ⟨out, hout, hlen⟩
  rw [hok] at hout
  have hout' : [(0 : ℚ), 0] = out := by injection hout
  subst hout'
  norm_num at hlen

/-- C2 (amended): for every series and positive window with
`window ≤ len(series)`, the rolling average succeeds, its length is
`len(series) - window + 1` (which equals `max(0, len - window + 1)` there),
and for `window = 1` the output equals the input exactly. -/
theorem C2_theorem (s : List ℚ) (w : ℕ) (hw : 0 < w) (hle : w ≤ s.length) :
    ∃ out, rollingAverage s w = .ok out ∧
      out.length = s.length - w + 1 ∧ (w = 1 → out = s) :=
  ⟨validSliceRA s w, rollingAverage_eq_ok s w hw hle, validSliceRA_length s w hw hle,
   fun h1 => by subst h1; exact validSliceRA_one s hle⟩

/-- C2 (witness): the amended claim evaluated at `series = [5, 7]`,
`window = 1`. -/
theorem C2_witness :
    ∃ out, rollingAverage [(5 : ℚ), 7] 1 = .ok out ∧
      out.length = [(5 : ℚ), 7].length - 1 + 1 ∧ (1 = 1 → out = [(5 : ℚ), 7]) :=
  C2_theorem [5, 7] 1 (by decide) (by decide)

/-- C3 (counterexample): a well-formed document with a `runs` key and no
`summary` key loads and extracts without any error, so the parse stage does
not fail with a parse error on the missing `summary` key. -/
theorem C3_counterexample :
    getItem (Json.obj [("runs", Json.arr [])]) ("summary") = .error (.keyError ("summary")) ∧
    loadAndExtract (some (Json.obj [("runs", Json.arr [])])) =
      .ok (Json.obj [("runs", Json.arr [])], ⟨[], [], [], [], [], [], [], []⟩) :=
  ⟨rfl, rfl⟩

/-- C3 (amended): the load stage fails with `JSONDecodeError` on malformed
JSON (never a silent empty result) and with `KeyError` for `runs` when that
key is missing; a missing `summary` is not checked at this stage. -/
theorem C3_theorem (input : Option Json) :
    (input = none → loadAndExtract input = .error .jsonDecodeError) ∧
    (∀ d, input = some d → getItem d ("runs") = .error (.keyError ("runs")) →
      loadAndExtract input = .error (.keyError ("runs"))) := by
  constructor
  · rintro rfl; rfl
  · rintro d rfl hk
    have h0 : loadAndExtract (some d) =
        (getItem d ("runs") >>= fun runsJ => asList runsJ >>= fun rs =>
          extractSeries rs >>= fun s => Except.ok (d, s)) := rfl
    rw [h0, hk]
    rfl

/-- C3 (witness): the amended claim evaluated on malformed input and on a
document without a `runs` key. -/
theorem C3_witness :
    loadAndExtract none = .error .jsonDecodeError ∧
    loadAndExtract (some (Json.obj [])) = .error (.keyError ("runs")) :=
  ⟨(C3_theorem none).1 rfl, (C3_theorem (some (Json.obj []))).2 (Json.obj []) rfl rfl⟩

/-- Concrete summary document for the C4 counterexample: the minimal 2-run
example of the specification (`scores [10, 20]`, `averageScore 15`), with
integer-valued metrics. -/
def c4Data : Json :=
  mkSummaryJson (.jint 15) (.jint 10) (.jint 20) (.jint 25) (.jint 40)
    (.jint 1) (.jint 0) (.jint 5) (.jint 1)

/-- C4 (counterexample): on the specification's own minimal example,
`minScore`/`maxScore` are rendered by plain `str()` as `"10"` and `"20"` on
the score-range line — not with exactly one decimal place, which would give
`"10.0 - 20.0"`. (The `averageScore = 15` line does render as `"15.0"`.) -/
theorem C4_counterexample :
    summaryLines c4Data = .ok
      ["Summary Statistics:", "Average Score: 15.0", "Score Range: 10 - 20",
       "Average Nodes Created: 25.0", "Average Edges Created: 40.0",
       "Average Property Coverage: 1.00", "Average Relationship Accuracy: 0.00",
       "Standard Deviation: 5.00", "Consistency Score: 1.00"] ∧
    ("Score Range: 10 - 20" : String) ≠
      "Score Range: " ++ fixedFormat ((10 : ℤ) : ℚ) 1 ++ " - " ++ fixedFormat ((20 : ℤ) : ℚ) 1 :=
  ⟨rfl, by decide⟩

/-- C4 (amended): the reporter renders `averageScore` and the average
nodes/edges with exactly one decimal place and the coverage, accuracy,
standard-deviation and consistency quantities with exactly two; `minScore`
and `maxScore` are rendered with plain `str()` (no forced decimal). For
`averageScore = 15` the rendered value is `"15.0"`. -/
theorem C4_theorem (a nc ec pc ra sd cs : ℚ) (mn mx : ℤ) :
    summaryLines (mkSummaryJson (.jnum a) (.jint mn) (.jint mx) (.jnum nc) (.jnum ec)
        (.jnum pc) (.jnum ra) (.jnum sd) (.jnum cs)) = .ok
      ["Summary Statistics:",
       "Average Score: " ++ fixedFormat a 1,
       "Score Range: " ++ toString mn ++ " - " ++ toString mx,
       "Average Nodes Created: " ++ fixedFormat nc 1,
       "Average Edges Created: " ++ fixedFormat ec 1,
       "Average Property Coverage: " ++ fixedFormat pc 2,
       "Average Relationship Accuracy: " ++ fixedFormat ra 2,
       "Standard Deviation: " ++ fixedFormat sd 2,
       "Consistency Score: " ++ fixedFormat cs 2] ∧
    fixedFormat 15 1 = "15.0" :=
  ⟨rfl, by decide⟩

/-- C5: the script normalizes `Z` to `+00:00` before parsing, so
`"2024-01-01T00:00:00Z"` parses to exactly what `"2024-01-01T00:00:00+00:00"`
parses to: the instant 1704067200 seconds since the epoch. -/
theorem C5_theorem :
    parseRunTimestamp ("2024-01-01T00:00:00Z")
      = fromisoformat ("2024-01-01T00:00:00+00:00") ∧
    fromisoformat ("2024-01-01T00:00:00+00:00")
      = some ⟨2024, 1, 1, 0, 0, 0, some 0⟩ ∧
    (fromisoformat ("2024-01-01T00:00:00+00:00")).bind toInstant = some 1704067200 :=
  ⟨by decide, by decide, by decide⟩

/-- C6: for every series and positive window with `window ≤ len(series)`,
the rolling average succeeds with `len - window + 1` entries and entry `t`
is the arithmetic mean of the `window` consecutive inputs starting at
index `t` (valid mode: no padding, no partial windows). -/
theorem C6_theorem (s : List ℚ) (w : ℕ) (hw : 0 < w) (hle : w ≤ s.length) :
    ∃ out, rollingAverage s w = .ok out ∧ out.length = s.length - w + 1 ∧
      ∀ t, (ht : t < out.length) →
        out[t] = (∑ j ∈ Finset.range w, s.getD (t + j) 0) / w :=
  ⟨validSliceRA s w, rollingAverage_eq_ok s w hw hle, validSliceRA_length s w hw hle,
   fun t ht => validSliceRA_getElem s w hw hle t ht⟩

/-- C6 (witness): the claim evaluated at `series = [2, 4, 6]`, `window = 3`,
together with the concrete value `rollingAverage [2,4,6] 3 = [4]`. -/
theorem C6_witness :
    (∃ out, rollingAverage [(2 : ℚ), 4, 6] 3 = .ok out ∧
      out.length = [(2 : ℚ), 4, 6].length - 3 + 1 ∧
      ∀ t, (ht : t < out.length) →
        out[t] = (∑ j ∈ Finset.range 3, ([(2 : ℚ), 4, 6]).getD (t + j) 0) / ((3 : ℕ) : ℚ)) ∧
    rollingAverage [(2 : ℚ), 4, 6] 3 = .ok [4] :=
  ⟨C6_theorem [2, 4, 6] 3 (by decide) (by decide), by
    simp [rollingAverage, npConvolveValid, npFullConv, List.range_succ,
      Finset.sum_range_succ, List.replicate, List.getD]
    norm_num⟩

/-- C8: on an empty candidate set the selection fails with the
file-not-found error. -/
theorem C8_theorem : selectLatestFile [] = .error .fileNotFoundError := rfl

/-- C9 (counterexample): for a no-dash name whose body contains `".json"`
in the middle, the code key removes every occurrence (`"ab"`), which differs
from the whole name with only the extension stripped (`"a.jsonb"`); the
selection can therefore differ from what the claimed key predicts. -/
theorem C9_counterexample :
    ("a.jsonb.json".data.all (fun c => c != '-')) = true ∧
    sortKey ("a.jsonb.json") = "ab" ∧
    specTimestampSegment ("a.jsonb.json") = "a.jsonb" ∧
    ("ab" : String) ≠ "a.jsonb" ∧
    selectLatestFile ["a.jsonb.json", "aa.json"] = .ok ("a.jsonb.json") ∧
    pyLt (specTimestampSegment ("a.jsonb.json")) (specTimestampSegment ("aa.json")) = true :=
  ⟨by decide, by decide, by decide, by decide, by decide, by decide⟩

/-- C9 (amended): on every non-empty candidate list `selectLatestFile`
returns a member of the list and never fails — the naming convention is not
validated — and a name containing no `-` uses the whole name with every
occurrence of `".json"` removed as its sort key. -/
theorem C9_theorem :
    (∀ files : List String, files ≠ [] → ∃ f, f ∈ files ∧ selectLatestFile files = .ok f) ∧
    (∀ x : String, splitOnChar '-' x.data = [x.data] →
      sortKey x = String.mk (replaceList (".json".data) [] x.data)) := by
  constructor
  · intro files h
    obtain ⟨f, hok, hmem, _⟩ := selectLatestFile_spec files h
    exact ⟨f, hmem, hok⟩
  · intro x hx
    rw [sortKey, hx]
    rfl

/-- C9 (witness): the amended claim evaluated on a singleton list and on a
no-dash name. -/
theorem C9_witness :
    (∃ f, f ∈ ["nodash.json"] ∧ selectLatestFile ["nodash.json"] = .ok f) ∧
    sortKey ("nodash.json") = String.mk (replaceList (".json".data) [] ("nodash.json".data)) :=
  ⟨C9_theorem.1 ["nodash.json"] (by decide), C9_theorem.2 ("nodash.json") (by decide)⟩

/-- C10: a well-formed document with a well-formed `runs` array and no
top-level `summary` key loads and extracts successfully; the missing-key
failure only appears at the first `data['summary']` read (line 53). -/
theorem C10_theorem (d : Json) (rs : List Json) (s : Series)
    (hruns : getItem d ("runs") = .ok (Json.arr rs))
    (hsum : getItem d ("summary") = .error (.keyError ("summary")))
    (hex : extractSeries rs = .ok s) :
    loadAndExtract (some d) = .ok (d, s) ∧
    summaryAverageScore d = .error (.keyError ("summary")) := by
  constructor
  · have h0 : loadAndExtract (some d) =
        (getItem d ("runs") >>= fun runsJ => asList runsJ >>= fun rs2 =>
          extractSeries rs2 >>= fun s2 => Except.ok (d, s2)) := rfl
    rw [h0, hruns, ok_bind]
    have h2 : asList (Json.arr rs) = Except.ok rs := rfl
    rw [h2, ok_bind, hex, ok_bind]
  · have h1 : summaryAverageScore d =
        (getItem d ("summary") >>= fun s2 => getItem s2 ("averageScore")) := rfl
    rw [h1, hsum]
    rfl

/-- C10 (witness): the claim evaluated on the concrete document
with an empty `runs` array and no `summary` key. -/
theorem C10_witness :
    loadAndExtract (some (Json.obj [("runs", Json.arr [])])) =
      .ok (Json.obj [("runs", Json.arr [])], ⟨[], [], [], [], [], [], [], []⟩) ∧
    summaryAverageScore (Json.obj [("runs", Json.arr [])]) = .error (.keyError ("summary")) :=
  C10_theorem (Json.obj [("runs", Json.arr [])]) [] ⟨[], [], [], [], [], [], [], []⟩ rfl rfl rfl




/-- C7: series extraction yields eight parallel sequences, each exactly as
long as `runs`, and entry `i` of each sequence is obtained from `runs[i]`
(order preserved). -/
theorem C7_theorem (runs : List Json) (s : Series) (h : extractSeries runs = .ok s) :
    s.runNumbers.length = runs.length ∧ s.scores.length = runs.length ∧
    s.timestamps.length = runs.length ∧ s.nodesCreated.length = runs.length ∧
    s.edgesCreated.length = runs.length ∧ s.propertyCoverage.length = runs.length ∧
    s.relationshipAccuracy.length = runs.length ∧ s.propertiesPerNode.length = runs.length ∧
    ∀ i, (hi : i < runs.length) →
      getItem (runs[i]) ("runNumber") = .ok (s.runNumbers.getD i .null) ∧
      getItem (runs[i]) ("score") = .ok (s.scores.getD i .null) ∧
      parseTimestampField (runs[i]) = .ok (s.timestamps.getD i default) ∧
      getDetail (runs[i]) ("nodesCreated") = .ok (s.nodesCreated.getD i .null) ∧
      getDetail (runs[i]) ("edgesCreated") = .ok (s.edgesCreated.getD i .null) ∧
      getDetail (runs[i]) ("propertyCoverage") = .ok (s.propertyCoverage.getD i .null) ∧
      getDetail (runs[i]) ("relationshipAccuracy") = .ok (s.relationshipAccuracy.getD i .null) ∧
      getDetail (runs[i]) ("averagePropertiesPerNode") =
        .ok (s.propertiesPerNode.getD i .null) := by
  have h' : (mapE (fun r => getItem r ("runNumber")) runs >>= fun runNumbers =>
      mapE (fun r => getItem r ("score")) runs >>= fun scores =>
      mapE parseTimestampField runs >>= fun timestamps =>
      mapE (fun r => getDetail r ("nodesCreated")) runs >>= fun nodesCreated =>
      mapE (fun r => getDetail r ("edgesCreated")) runs >>= fun edgesCreated =>
      mapE (fun r => getDetail r ("propertyCoverage")) runs >>= fun propertyCoverage =>
      mapE (fun r => getDetail r ("relationshipAccuracy")) runs >>= fun relationshipAccuracy =>
      mapE (fun r => getDetail r ("averagePropertiesPerNode")) runs >>= fun propertiesPerNode =>
      Except.ok (⟨runNumbers, scores, timestamps, nodesCreated, edgesCreated,
        propertyCoverage, relationshipAccuracy, propertiesPerNode⟩ : Series)) = .ok s := h
  rw [bind_ok_iff] at h'
  obtain ⟨l1, h1, h'⟩ := h'
  rw [bind_ok_iff] at h'
  obtain ⟨l2, h2, h'⟩ := h'
  rw [bind_ok_iff] at h'
  obtain ⟨l3, h3, h'⟩ := h'
  rw [bind_ok_iff] at h'
  obtain ⟨l4, h4, h'⟩ := h'
  rw [bind_ok_iff] at h'
  obtain ⟨l5, h5, h'⟩ := h'
  rw [bind_ok_iff] at h'
  obtain ⟨l6, h6, h'⟩ := h'
  rw [bind_ok_iff] at h'
  obtain ⟨l7, h7, h'⟩ := h'
  rw [bind_ok_iff] at h'
  obtain ⟨l8, h8, h'⟩ := h'
  have hs : (⟨l1, l2, l3, l4, l5, l6, l7, l8⟩ : Series) = s := by injection h'
  subst hs
  obtain ⟨n1, e1⟩ := mapE_eq_ok (fun r => getItem r ("runNumber")) runs l1 h1
  obtain ⟨n2, e2⟩ := mapE_eq_ok (fun r => getItem r ("score")) runs l2 h2
  obtain ⟨n3, e3⟩ := mapE_eq_ok parseTimestampField runs l3 h3
  obtain ⟨n4, e4⟩ := mapE_eq_ok (fun r => getDetail r ("nodesCreated")) runs l4 h4
  obtain ⟨n5, e5⟩ := mapE_eq_ok (fun r => getDetail r ("edgesCreated")) runs l5 h5
  obtain ⟨n6, e6⟩ := mapE_eq_ok (fun r => getDetail r ("propertyCoverage")) runs l6 h6
  obtain ⟨n7, e7⟩ := mapE_eq_ok (fun r => getDetail r ("relationshipAccuracy")) runs l7 h7
  obtain ⟨n8, e8⟩ := mapE_eq_ok (fun r => getDetail r ("averagePropertiesPerNode")) runs l8 h8
  refine ⟨n1, n2, n3, n4, n5, n6, n7, n8, ?_⟩
  intro i hi
  refine ⟨?_, ?_, ?_, ?_, ?_, ?_, ?_, ?_⟩
  · show getItem (runs[i]) ("runNumber") = .ok (l1.getD i Json.null)
    rw [getD_of_lt l1 Json.null i (by omega)]
    exact e1 i hi (by omega)
  · show getItem (runs[i]) ("score") = .ok (l2.getD i Json.null)
    rw [getD_of_lt l2 Json.null i (by omega)]
    exact e2 i hi (by omega)
  · show parseTimestampField (runs[i]) = .ok (l3.getD i default)
    rw [getD_of_lt l3 default i (by omega)]
    exact e3 i hi (by omega)
  · show getDetail (runs[i]) ("nodesCreated") = .ok (l4.getD i Json.null)
    rw [getD_of_lt l4 Json.null i (by omega)]
    exact e4 i hi (by omega)
  · show getDetail (runs[i]) ("edgesCreated") = .ok (l5.getD i Json.null)
    rw [getD_of_lt l5 Json.null i (by omega)]
    exact e5 i hi (by omega)
  · show getDetail (runs[i]) ("propertyCoverage") = .ok (l6.getD i Json.null)
    rw [getD_of_lt l6 Json.null i (by omega)]
    exact e6 i hi (by omega)
  · show getDetail (runs[i]) ("relationshipAccuracy") = .ok (l7.getD i Json.null)
    rw [getD_of_lt l7 Json.null i (by omega)]
    exact e7 i hi (by omega)
  · show getDetail (runs[i]) ("averagePropertiesPerNode") = .ok (l8.getD i Json.null)
    rw [getD_of_lt l8 Json.null i (by omega)]
    exact e8 i hi (by omega)

/-- One well-formed run record, used to witness C7. -/
def sampleRun : Json :=
  .obj [("runNumber", .jint 1), ("score", .jint 10),
    ("timestamp", .str ("2024-01-01T00:00:00Z")),
    ("details", .obj [("nodesCreated", .jint 5), ("edgesCreated", .jint 3),
      ("propertyCoverage", .jint 1), ("relationshipAccuracy", .jint 1),
      ("averagePropertiesPerNode", .jint 2)])]

/-- The series extracted from `[sampleRun]`. -/
def sampleSeries : Series :=
  ⟨[.jint 1], [.jint 10], [⟨2024, 1, 1, 0, 0, 0, some 0⟩],
   [.jint 5], [.jint 3], [.jint 1], [.jint 1], [.jint 2]⟩

/-- C7 (witness): the claim evaluated on the one-run list `[sampleRun]`. -/
theorem C7_witness :
    sampleSeries.runNumbers.length = [sampleRun].length ∧
    sampleSeries.scores.length = [sampleRun].length ∧
    sampleSeries.timestamps.length = [sampleRun].length ∧
    sampleSeries.nodesCreated.length = [sampleRun].length ∧
    sampleSeries.edgesCreated.length = [sampleRun].length ∧
    sampleSeries.propertyCoverage.length = [sampleRun].length ∧
    sampleSeries.relationshipAccuracy.length = [sampleRun].length ∧
    sampleSeries.propertiesPerNode.length = [sampleRun].length ∧
    ∀ i, (hi : i < ([sampleRun] : List Json).length) →
      getItem (([sampleRun] : List Json)[i]) ("runNumber")
        = .ok (sampleSeries.runNumbers.getD i .null) ∧
      getItem (([sampleRun] : List Json)[i]) ("score")
        = .ok (sampleSeries.scores.getD i .null) ∧
      parseTimestampField (([sampleRun] : List Json)[i])
        = .ok (sampleSeries.timestamps.getD i default) ∧
      getDetail (([sampleRun] : List Json)[i]) ("nodesCreated")
        = .ok (sampleSeries.nodesCreated.getD i .null) ∧
      getDetail (([sampleRun] : List Json)[i]) ("edgesCreated")
        = .ok (sampleSeries.edgesCreated.getD i .null) ∧
      getDetail (([sampleRun] : List Json)[i]) ("propertyCoverage")
        = .ok (sampleSeries.propertyCoverage.getD i .null) ∧
      getDetail (([sampleRun] : List Json)[i]) ("relationshipAccuracy")
        = .ok (sampleSeries.relationshipAccuracy.getD i .null) ∧
      getDetail (([sampleRun] : List Json)[i]) ("averagePropertiesPerNode")
        = .ok (sampleSeries.propertiesPerNode.getD i .null) :=
  C7_theorem [sampleRun] sampleSeries rfl


end PlotEval
